import Mathlib

/-!
Verification of the ChromeFlex plugin-orchestration core against its
natural-language specification.  The definitions below are a shallow
embedding, translated from the TypeScript sources:

* `src/core/feature-registry.ts` — registry, dependency sort, health split
* `src/core/event-bus.ts`        — publish/subscribe bus
* `src/core/base-feature.ts`     — lifecycle state machine, retry policy
* `src/core/feature-manager.ts`  — orchestrator (deactivation loop)

JS `Map`/`Set` iteration is insertion-ordered, so both are modelled as
lists; `Array.prototype.sort` is stable (ES2019), modelled by a stable
insertion sort.
-/

namespace ChromeFlex

/-- Lifecycle states of a feature (`FeatureState` in `src/types/index.ts`). -/
inductive FState
  | idle
  | initializing
  | initialized
  | starting
  | running
  | stopping
  | stopped
  | error
  | disabled
  | fallback
deriving DecidableEq, Repr

/-- A registered feature as the registry and manager see it: identity,
numeric priority (`config.priority ?? 0`), declared dependency names
(`config.dependencies`, `[]` when absent), current lifecycle state, and —
for the deactivation model — whether its `stop`/`destroy` hooks throw. -/
structure Feat where
  name : String
  priority : Int
  deps : List String
  state : FState
  stopFails : Bool
  destroyFails : Bool
deriving DecidableEq, Repr

/-- A registry is the insertion-ordered contents of the `features` map
(`Map<string, Feature>` in `feature-registry.ts`). -/
def Registry := List Feat

/-- `this.features.get(name)` — first (unique) entry with that name. -/
def regFind (reg : List Feat) (n : String) : Option Feat :=
  reg.find? (fun f => f.name = n)

/-- `this.dependencies.get(name) || []` : the dependency list registered
for `name`, empty when the feature is unknown or declared none. -/
def depsOf (reg : List Feat) (n : String) : List String :=
  match regFind reg n with
  | some f => f.deps
  | none => []

/-- Mutable state of the depth-first traversal in `getSortedFeatures`
(lines 97-141 of `feature-registry.ts`): `visited` and `visiting` name
sets plus the post-order output list. -/
structure SortState where
  visited : List String
  visiting : List String
  sorted : List Feat
deriving DecidableEq, Repr

/-- The recursive `visit` closure of `getSortedFeatures`.  Recursion depth
is bounded by the number of distinct names that can enter `visiting`
(each nested call pushes a fresh registered name), so the explicit fuel
`reg.length + 1` used by `getSortedFeatures` below never runs out; fuel
exhaustion returns the state unchanged.  A name found in `visiting` is a
cycle: that branch is abandoned (the source only logs).  An unregistered
name is added to and removed from `visiting` and leaves the state
unchanged, which the model collapses to the identity. -/
def visitFuel (reg : List Feat) : Nat → String → SortState → SortState
  | 0, _, s => s
  | fuel + 1, n, s =>
    if n ∈ s.visited then s
    else if n ∈ s.visiting then s
    else
      match regFind reg n with
      | none => s
      | some f =>
        let s1 : SortState := { s with visiting := n :: s.visiting }
        let s2 := (depsOf reg n).foldl (fun acc d => visitFuel reg fuel d acc) s1
        { visited := n :: s2.visited
          visiting := s2.visiting.erase n
          sorted := s2.sorted ++ [f] }

/-- Stable insertion of `a` in front of the first element `b` with
`le a b`; together with `stableSortBy` this models the observable
behaviour of the (spec-mandated stable) JS `Array.prototype.sort`. -/
def stableInsert (le : Feat → Feat → Bool) (a : Feat) : List Feat → List Feat
  | [] => [a]
  | b :: l => if le a b then a :: b :: l else b :: stableInsert le a l

/-- Stable sort by the comparator-induced order (model of the JS
`sort`). -/
def stableSortBy (le : Feat → Feat → Bool) : List Feat → List Feat
  | [] => []
  | a :: l => stableInsert le a (stableSortBy le l)

/-- Comparator `(a, b) => (b.priority || 0) - (a.priority || 0)` of the
final sort in `getSortedFeatures`: `a` may stay before `b` iff
`b.priority ≤ a.priority` (descending priority). -/
def priorityDesc (a b : Feat) : Bool :=
  decide (b.priority ≤ a.priority)

/-- `getSortedFeatures()` (`feature-registry.ts` lines 97-141): DFS
post-order over the dependency graph starting from every registered
feature in registration order, then a global stable sort by descending
priority. -/
def getSortedFeatures (reg : List Feat) : List Feat :=
  let s :=
    reg.foldl (fun acc f => visitFuel reg (reg.length + 1) f.name acc)
      (SortState.mk [] [] [])
  stableSortBy priorityDesc s.sorted

/-- `getAll()` — insertion-ordered list of registered features. -/
def getAll (reg : List Feat) : List Feat :=
  reg

/-- `getByState(state)` — `getAll` filtered by state, order preserved. -/
def getByState (reg : List Feat) (st : FState) : List Feat :=
  reg.filter (fun f => f.state == st)

/-- `getHealthyFeatures()` (`feature-registry.ts` lines 269-274): keeps
every feature whose state is neither `error` nor `disabled`.  Note that
`fallback` is NOT excluded here. -/
def getHealthyFeatures (reg : List Feat) : List Feat :=
  reg.filter (fun f => !(f.state == FState.error) && !(f.state == FState.disabled))

/-- `getProblematicFeatures()` (`feature-registry.ts` lines 276-284):
keeps exactly the features in `error`, `disabled` or `fallback`. -/
def getProblematicFeatures (reg : List Feat) : List Feat :=
  reg.filter
    (fun f =>
      f.state == FState.error || f.state == FState.disabled ||
        f.state == FState.fallback)

/-!
Event bus (`src/core/event-bus.ts`).  Listeners for one event type live
in a JS `Set`, modelled as an insertion-ordered list of listener ids.
`emit` iterates that set directly with `for (const listener of
eventListeners)` — the live set, not a copy — so the model threads the
set through the dispatch.  A listener's observable behaviour towards the
bus is abstracted by `LAction`: do nothing, throw synchronously, return
a rejecting promise, subscribe another listener for the same type
(`on`), or unsubscribe one (`off`/an unsubscribe closure).
-/

/-- What a listener does when invoked. -/
inductive LAction
  | nop
  | throws
  | rejects
  | addL (k : Nat)
  | removeL (k : Nat)
deriving DecidableEq, Repr

/-- Effect of one listener invocation on the listener set, split into the
already-visited part `done` (the current listener is its last element)
and the not-yet-visited part `pending`.  `Set.add` appends only when the
value is absent from the whole set; `Set.delete` removes the value
wherever it is.  `throws` and `rejects` are caught by `emit`
(`try`/`catch` and `Promise.catch`), so they do not touch the set
either. -/
def applyLAction : LAction → List Nat → List Nat → List Nat × List Nat
  | LAction.addL k, done, pending =>
    if k ∈ done ++ pending then (done, pending) else (done, pending ++ [k])
  | LAction.removeL k, done, pending => (done.erase k, pending.erase k)
  | _, done, pending => (done, pending)

/-- The dispatch loop of `emit` (`event-bus.ts` lines 26-42): JS `Set`
iteration visits, in insertion order, every element still present when
the iterator reaches its slot, including elements appended during the
loop.  Since a listener may unsubscribe and re-subscribe listeners, the
loop is not structurally recursive; `fuel` bounds the number of
invocations and `none` means the bound was hit (each invocation consumes
one unit, so any `fuel ≥` the number of invocations yields `some`).
Returns the invoked listeners in invocation order. -/
def emitDispatch (act : Nat → LAction) :
    Nat → List Nat → List Nat → List Nat → Option (List Nat)
  | 0, _, _, _ => none
  | _ + 1, _, [], invoked => some invoked.reverse
  | fuel + 1, done, h :: rest, invoked =>
    let dp := applyLAction (act h) (done ++ [h]) rest
    emitDispatch act fuel dp.1 dp.2 (h :: invoked)

/-- `emit(type, payload, source)` restricted to one event type: dispatch
over the listeners registered for that type at call time.  The result is
the list of listeners invoked by this emit; the dispatch itself never
throws to the caller (every listener failure is caught inside the
loop). -/
def emitInvoked (act : Nat → LAction) (fuel : Nat) (listeners : List Nat) :
    Option (List Nat) :=
  emitDispatch act fuel [] listeners []

/-- Listeners in `l` that neither subscribe nor unsubscribe during
dispatch (they may still throw or reject). -/
def NonMutating (act : Nat → LAction) (l : List Nat) : Prop :=
  ∀ k ∈ l, act k = LAction.nop ∨ act k = LAction.throws ∨ act k = LAction.rejects

/-- Listeners in `l` that do nothing at all when invoked. -/
def Inert (act : Nat → LAction) (l : List Nat) : Prop :=
  ∀ k ∈ l, act k = LAction.nop

/-!
Unit lifecycle state machine (`src/core/base-feature.ts`).
-/

/-- `ErrorRecoveryStrategy` (`src/types/index.ts`): retry limit, base
delay in milliseconds, and whether a terminal fallback mode exists.
`BaseFeature`'s constructor defaults are `maxRetries = 3`,
`retryDelay = 1000`, `fallbackMode = true`. -/
structure ErrorRecovery where
  maxRetries : Nat
  retryDelay : Nat
  fallbackMode : Bool
deriving DecidableEq, Repr

/-- `FeatureError` (`src/types/index.ts`), without the wall-clock
timestamp and browser context snapshot: feature name, failing phase, and
the underlying error (identified by its message). -/
structure ErrRecord where
  featureName : String
  phase : String
  errMsg : String
deriving DecidableEq, Repr

/-- The mutable per-unit fields of `BaseFeature`: `_state`, `_lastError`,
`_retryCount`, together with the immutable identity and the resolved
error-recovery policy. -/
structure UnitModel where
  name : String
  recovery : ErrorRecovery
  state : FState
  lastError : Option ErrRecord
  retryCount : Nat
deriving DecidableEq, Repr

/-- What the timer scheduled by `scheduleRetry` does when it fires: the
`switch (phase)` in its callback re-enters `init` for phase `"init"`,
re-enters `start` for phase `"start"`, and has no case for any other
phase (the callback body does nothing then). -/
inductive RetryAction
  | reenterInit
  | reenterStart
  | noRetry
deriving DecidableEq, Repr

/-- The `switch (phase)` of `scheduleRetry`'s timer callback
(`base-feature.ts` lines 161-169). -/
def retryActionFor (phase : String) : RetryAction :=
  if phase = "init" then RetryAction.reenterInit
  else if phase = "start" then RetryAction.reenterStart
  else RetryAction.noRetry

/-- Recovery decision taken at the end of `handleError`
(`base-feature.ts` lines 142-149): schedule a timer (with its computed
delay and what its callback will do), enter fallback mode, or set the
state to `disabled`. -/
inductive Decision
  | scheduleTimer (delay : Nat) (action : RetryAction)
  | fallbackEntered
  | disabledSet
deriving DecidableEq, Repr

/-- Result of running `handleError`: the updated unit, the recovery
decision, and the lifecycle states entered (via `setState`) during the
call, in order. -/
structure HandleResult where
  unit : UnitModel
  decision : Decision
  statesEntered : List FState
deriving DecidableEq, Repr

/-- `handleError(error, phase)` (`base-feature.ts` lines 107-150):
record the error, increment `_retryCount`, set state to `error`, then —
with the incremented count — either schedule a retry after
`retryDelay * retryCount` ms, enter fallback mode (which sets state
`fallback`), or set state `disabled`. -/
def handleError (u : UnitModel) (errMsg : String) (phase : String) :
    HandleResult :=
  let u1 : UnitModel :=
    { u with
      lastError := some (ErrRecord.mk u.name phase errMsg)
      retryCount := u.retryCount + 1 }
  if u1.retryCount < u.recovery.maxRetries then
    { unit := { u1 with state := FState.error }
      decision :=
        Decision.scheduleTimer (u.recovery.retryDelay * u1.retryCount)
          (retryActionFor phase)
      statesEntered := [FState.error] }
  else if u.recovery.fallbackMode then
    { unit := { u1 with state := FState.fallback }
      decision := Decision.fallbackEntered
      statesEntered := [FState.error, FState.fallback] }
  else
    { unit := { u1 with state := FState.disabled }
      decision := Decision.disabledSet
      statesEntered := [FState.error, FState.disabled] }

/-- Outcome of one invocation of a user-supplied lifecycle hook: it
returns normally or throws/rejects with an error. -/
inductive HookResult
  | ok
  | fail (msg : String)
deriving DecidableEq, Repr

/-- What the promise returned by a public lifecycle method does. -/
inductive CallOutcome
  | resolved
  | rejected (msg : String)
deriving DecidableEq, Repr

/-- Result of one call to a public lifecycle method (`init`, `start`,
`stop`, `destroy`): updated unit, the returned promise's outcome, the
states entered during the call, whether the disallowed-state warning was
logged, and the recovery decision if `handleError` ran. -/
structure CallResult where
  unit : UnitModel
  outcome : CallOutcome
  statesEntered : List FState
  warned : Bool
  decision : Option Decision
deriving DecidableEq, Repr

/-- `init(context)` (`base-feature.ts` lines 232-245): allowed only from
`idle` or `error` (otherwise a logged warning and a resolved promise,
nothing else); on success `initializing → initialized` and the retry
counter resets; on hook failure `handleError(e, "init")` runs and the
promise is rejected with the original error (`safeExecute` re-throws). -/
def initCall (u : UnitModel) (hook : HookResult) : CallResult :=
  if u.state ≠ FState.idle ∧ u.state ≠ FState.error then
    { unit := u, outcome := CallOutcome.resolved, statesEntered := []
      warned := true, decision := none }
  else
    match hook with
    | HookResult.ok =>
      { unit := { u with state := FState.initialized, retryCount := 0 }
        outcome := CallOutcome.resolved
        statesEntered := [FState.initializing, FState.initialized]
        warned := false, decision := none }
    | HookResult.fail msg =>
      let hr := handleError { u with state := FState.initializing } msg "init"
      { unit := hr.unit, outcome := CallOutcome.rejected msg
        statesEntered := FState.initializing :: hr.statesEntered
        warned := false, decision := some hr.decision }

/-- `start(context)` (`base-feature.ts` lines 247-264): allowed only
from `initialized`, `stopped` or `error`; on success
`starting → running` and the retry counter resets; on hook failure
`handleError(e, "start")` runs and the promise rejects. -/
def startCall (u : UnitModel) (hook : HookResult) : CallResult :=
  if u.state ≠ FState.initialized ∧ u.state ≠ FState.stopped ∧
      u.state ≠ FState.error then
    { unit := u, outcome := CallOutcome.resolved, statesEntered := []
      warned := true, decision := none }
  else
    match hook with
    | HookResult.ok =>
      { unit := { u with state := FState.running, retryCount := 0 }
        outcome := CallOutcome.resolved
        statesEntered := [FState.starting, FState.running]
        warned := false, decision := none }
    | HookResult.fail msg =>
      let hr := handleError { u with state := FState.starting } msg "start"
      { unit := hr.unit, outcome := CallOutcome.rejected msg
        statesEntered := FState.starting :: hr.statesEntered
        warned := false, decision := some hr.decision }

/-- `stop()` (`base-feature.ts` lines 266-278): allowed only from
`running` or `error`; on success `stopping → stopped` (the retry counter
is NOT reset here); on hook failure `handleError(e, "stop")` runs and
the promise rejects. -/
def stopCall (u : UnitModel) (hook : HookResult) : CallResult :=
  if u.state ≠ FState.running ∧ u.state ≠ FState.error then
    { unit := u, outcome := CallOutcome.resolved, statesEntered := []
      warned := true, decision := none }
  else
    match hook with
    | HookResult.ok =>
      { unit := { u with state := FState.stopped }
        outcome := CallOutcome.resolved
        statesEntered := [FState.stopping, FState.stopped]
        warned := false, decision := none }
    | HookResult.fail msg =>
      let hr := handleError { u with state := FState.stopping } msg "stop"
      { unit := hr.unit, outcome := CallOutcome.rejected msg
        statesEntered := FState.stopping :: hr.statesEntered
        warned := false, decision := some hr.decision }

/-- `destroy()` (`base-feature.ts` lines 280-297): callable from any
state.  If the unit is `running` it first runs the full `stop` sequence;
a failure there (already handled inside `stop`) is re-thrown by the
inner `try`, handled again by `destroy`'s `safeExecute` with phase
`"destroy"`, and the promise rejects with the original error.  Otherwise
the `onDestroy` hook runs: on success cleanup runs and the state returns
to `idle`; on failure `handleError(e, "destroy")` runs and the promise
rejects. -/
def destroyCall (u : UnitModel) (stopHook destroyHook : HookResult) :
    CallResult :=
  if u.state = FState.running then
    let sc := stopCall u stopHook
    match sc.outcome with
    | CallOutcome.rejected msg =>
      let hr := handleError sc.unit msg "destroy"
      { unit := hr.unit, outcome := CallOutcome.rejected msg
        statesEntered := sc.statesEntered ++ hr.statesEntered
        warned := false, decision := some hr.decision }
    | CallOutcome.resolved =>
      match destroyHook with
      | HookResult.ok =>
        { unit := { sc.unit with state := FState.idle }
          outcome := CallOutcome.resolved
          statesEntered := sc.statesEntered ++ [FState.idle]
          warned := false, decision := none }
      | HookResult.fail msg =>
        let hr := handleError sc.unit msg "destroy"
        { unit := hr.unit, outcome := CallOutcome.rejected msg
          statesEntered := sc.statesEntered ++ hr.statesEntered
          warned := false, decision := some hr.decision }
  else
    match destroyHook with
    | HookResult.ok =>
      { unit := { u with state := FState.idle }
        outcome := CallOutcome.resolved
        statesEntered := [FState.idle]
        warned := false, decision := none }
    | HookResult.fail msg =>
      let hr := handleError u msg "destroy"
      { unit := hr.unit, outcome := CallOutcome.rejected msg
        statesEntered := hr.statesEntered
        warned := false, decision := some hr.decision }

/-- Observable traces of a whole retry-driven `init` episode: final unit,
the full observed state sequence (initial state included), the full
observed `retryCount` sequence (initial value included, then one entry
per assignment), and the delays of the timers scheduled by
`scheduleRetry`, in order. -/
structure RunResult where
  unit : UnitModel
  states : List FState
  retrySeq : List Nat
  delays : List Nat
deriving DecidableEq, Repr

/-- One `init` attempt plus the timer-driven retries that follow it
(`init` + `handleError` + `scheduleRetry`'s callback re-entering `init`).
`outcomes k` is what the `onInit` hook does on its `k`-th invocation.
Each recursive step strictly increases `retryCount`, which stays below
`maxRetries` whenever a retry is scheduled, so the fuel used by `runInit`
(`maxRetries + 1`) never runs out; exhaustion stops with the traces so
far. -/
def runInitAux (outcomes : Nat → HookResult) :
    Nat → Nat → UnitModel → List FState → List Nat → List Nat → RunResult
  | 0, _, u, states, retrySeq, delays => RunResult.mk u states retrySeq delays
  | fuel + 1, attempt, u, states, retrySeq, delays =>
    if u.state ≠ FState.idle ∧ u.state ≠ FState.error then
      RunResult.mk u states retrySeq delays
    else
      match outcomes attempt with
      | HookResult.ok =>
        RunResult.mk
          { u with state := FState.initialized, retryCount := 0 }
          (states ++ [FState.initializing, FState.initialized])
          (retrySeq ++ [0]) delays
      | HookResult.fail msg =>
        let hr := handleError { u with state := FState.initializing } msg "init"
        let states2 := states ++ FState.initializing :: hr.statesEntered
        let retry2 := retrySeq ++ [hr.unit.retryCount]
        match hr.decision with
        | Decision.scheduleTimer d _ =>
          runInitAux outcomes fuel (attempt + 1) hr.unit states2 retry2
            (delays ++ [d])
        | _ => RunResult.mk hr.unit states2 retry2 delays

/-- A full `init` episode of a unit: the first public `init` call and
every timer-driven retry, with the observed state and `retryCount`
sequences (both starting at the unit's current values). -/
def runInit (u : UnitModel) (outcomes : Nat → HookResult) : RunResult :=
  runInitAux outcomes (u.recovery.maxRetries + 1) 0 u [u.state] [u.retryCount] []

/-!
Resource cleanup and fallback entry (`base-feature.ts`).
-/

/-- Externally visible actions performed while entering fallback mode:
state changes, the individual cleanup steps of `safeCleanup`, and the
`feature:fallback` event. -/
inductive CAction
  | setStateAct (s : FState)
  | clearTimeoutAct (t : Nat)
  | clearIntervalAct (t : Nat)
  | removeElementAct (k : String)
  | runCleanupTask (t : Nat)
  | emitFallbackEvent
deriving DecidableEq, Repr

/-- The resources a `BaseFeature` owns: `timers`, `intervals`,
`elements` (keyed DOM nodes) and `cleanupTasks`, each an
insertion-ordered JS collection. -/
structure Resources where
  timers : List Nat
  intervals : List Nat
  elements : List String
  cleanupTasks : List Nat
deriving DecidableEq, Repr

/-- `safeCleanup()` (`base-feature.ts` lines 311-347): cancel every
timer, cancel every interval, remove every owned element, run every
registered cleanup task — in that order, each step isolated — then clear
all four collections (so each entry is processed exactly once). -/
def safeCleanupTrace (r : Resources) : List CAction :=
  r.timers.map CAction.clearTimeoutAct ++
    r.intervals.map CAction.clearIntervalAct ++
    r.elements.map CAction.removeElementAct ++
    r.cleanupTasks.map CAction.runCleanupTask

/-- `enterFallbackMode()` (`base-feature.ts` lines 179-195): FIRST set
the state to `fallback`, THEN run `safeCleanup`, then emit the
`feature:fallback` event. -/
def enterFallbackTrace (r : Resources) : List CAction :=
  CAction.setStateAct FState.fallback :: safeCleanupTrace r ++
    [CAction.emitFallbackEvent]

/-!
Manager deactivation (`src/core/feature-manager.ts` lines 129-167).
-/

/-- A stop or destroy call issued by `deactivateFeatures`, by feature
name. -/
inductive DAction
  | stopCallOn (n : String)
  | destroyCallOn (n : String)
deriving DecidableEq, Repr

/-- Per-feature body of the deactivation loop: `await feature.stop();
await feature.destroy();` inside one `try` — so when `stop` throws,
`destroy` is not reached for that feature; either failure is caught and
the loop moves on. -/
def deactivateOne (f : Feat) : List DAction :=
  DAction.stopCallOn f.name ::
    (if f.stopFails then [] else [DAction.destroyCallOn f.name])

/-- `deactivateFeatures()`: take the features currently `running` — via
`getByState`, i.e. in registration order — reverse THAT list, and run
the stop/destroy body on each, failures caught per feature.  Returns the
call trace in order. -/
def deactivateFeatures (reg : List Feat) : List DAction :=
  ((getByState reg FState.running).reverse).foldl
    (fun acc f => acc ++ deactivateOne f) []

/-- The features on which `deactivateFeatures` issues a `stop` call, in
call order. -/
def stopsOf : List DAction → List String
  | [] => []
  | DAction.stopCallOn n :: tr => n :: stopsOf tr
  | DAction.destroyCallOn _ :: tr => stopsOf tr


/-- Failing input for C1: feature `A` (priority 10) declares a dependency
on `B` (priority 5); both are registered, the graph is acyclic. -/
def c1A : Feat := Feat.mk "A" 10 ["B"] FState.idle false false

def c1B : Feat := Feat.mk "B" 5 [] FState.idle false false

/-- C1: the claim says `getSortedFeatures()` places every registered unit
after all of its declared dependencies, priority only breaking ties.  The
code violates this (and the function's own "respecting dependencies"
comment): the DFS post-order is `[B, A]`, but the final global sort by
descending priority returns `A` strictly BEFORE its dependency `B`. -/
theorem c1_priority_sort_overrides_dependencies :
    "B" ∈ c1A.deps ∧
    (getSortedFeatures [c1A, c1B]).map Feat.name = ["A", "B"] ∧
    ((getSortedFeatures [c1A, c1B]).map Feat.name).indexOf "A" <
      ((getSortedFeatures [c1A, c1B]).map Feat.name).indexOf "B" := by
  decide

/-- The deactivation fold is a `flatMap` of the per-feature bodies. -/
theorem foldl_append_deactivateOne (l : List Feat) (acc : List DAction) :
    l.foldl (fun acc f => acc ++ deactivateOne f) acc =
      acc ++ l.flatMap deactivateOne := by
  induction l generalizing acc with
  | nil => simp
  | cons h t ih => simp [ih, List.append_assoc]

/-- `deactivateFeatures` is the concatenation of the per-feature
stop/destroy bodies over the reversed running list. -/
theorem deactivateFeatures_eq_flatMap (reg : List Feat) :
    deactivateFeatures reg =
      ((getByState reg FState.running).reverse).flatMap deactivateOne := by
  unfold deactivateFeatures
  rw [foldl_append_deactivateOne]
  simp

/-- `stopsOf` distributes over concatenation. -/
theorem stopsOf_append (a b : List DAction) :
    stopsOf (a ++ b) = stopsOf a ++ stopsOf b := by
  induction a with
  | nil => rfl
  | cons h t ih => cases h <;> simp [stopsOf, ih]

/-- Each per-feature body issues exactly one `stop` call, whatever the
feature's hooks do. -/
theorem stopsOf_deactivateOne (f : Feat) :
    stopsOf (deactivateOne f) = [f.name] := by
  unfold deactivateOne
  cases f.stopFails <;> simp [stopsOf]

/-- C3 (amended): `deactivateFeatures()` processes the currently running
units in the reverse of their REGISTRATION order (the `getByState`
iteration order), not of the activation order produced by
`getSortedFeatures()`.  Every running unit receives its `stop` call
regardless of any other unit's failures (one stop per unit, in that
reversed order), and `destroy` is additionally called on each unit whose
own `stop` did not throw. -/
theorem c3_deactivate_order (reg : List Feat) :
    stopsOf (deactivateFeatures reg) =
      ((getByState reg FState.running).map Feat.name).reverse ∧
    (∀ f ∈ getByState reg FState.running,
      DAction.stopCallOn f.name ∈ deactivateFeatures reg) ∧
    (∀ f ∈ getByState reg FState.running, f.stopFails = false →
      DAction.destroyCallOn f.name ∈ deactivateFeatures reg) := by
  rw [deactivateFeatures_eq_flatMap]
  refine ⟨?_, ?_, ?_⟩
  · rw [← List.map_reverse]
    generalize (getByState reg FState.running).reverse = l
    induction l with
    | nil => rfl
    | cons h t ih =>
      rw [List.flatMap_cons, stopsOf_append, stopsOf_deactivateOne, ih]
      simp
  · intro f hf
    rw [List.mem_flatMap]
    exact ⟨f, by simpa using hf, by simp [deactivateOne]⟩
  · intro f hf hsf
    rw [List.mem_flatMap]
    exact ⟨f, by simpa using hf, by simp [deactivateOne, hsf]⟩

/-- Counterexample input for C3: `a` is registered before `b`, both are
running, and `b` has the higher priority. -/
def c3ra : Feat := Feat.mk "a" 0 [] FState.running false false

def c3rb : Feat := Feat.mk "b" 10 [] FState.running false false

/-- C3 counterexample: activation order (`getSortedFeatures`) is
`[b, a]`, so the claimed teardown order — its reverse — is `[a, b]`; the
code instead stops in order `[b, a]` (reverse of registration order). -/
theorem c3_counterexample :
    stopsOf (deactivateFeatures [c3ra, c3rb]) = ["b", "a"] ∧
    ((getSortedFeatures [c3ra, c3rb]).map Feat.name).reverse = ["a", "b"] ∧
    (["b", "a"] : List String) ≠ ["a", "b"] := by
  decide

/-- Witness for `c3_deactivate_order` at the concrete two-unit
registry. -/
theorem c3_witness :
    stopsOf (deactivateFeatures [c3ra, c3rb]) =
      ((getByState [c3ra, c3rb] FState.running).map Feat.name).reverse ∧
    DAction.destroyCallOn "a" ∈ deactivateFeatures [c3ra, c3rb] :=
  ⟨(c3_deactivate_order [c3ra, c3rb]).1,
   (c3_deactivate_order [c3ra, c3rb]).2.2 c3ra (by decide) (by decide)⟩

/-- Counterexample input for C4: a single unit whose state is
`fallback`. -/
def c4f : Feat := Feat.mk "f" 0 [] FState.fallback false false

/-- C4 counterexample: a unit in `fallback` state is returned by BOTH
`getHealthyFeatures()` and `getProblematicFeatures()` — the two lists do
not partition the registry. -/
theorem c4_counterexample :
    c4f.state = FState.fallback ∧
    c4f ∈ getHealthyFeatures [c4f] ∧
    c4f ∈ getProblematicFeatures [c4f] := by
  decide

/-- C4 (amended): `getProblematicFeatures()` returns exactly the units in
`error`, `disabled` or `fallback`; `getHealthyFeatures()` returns exactly
the units in neither `error` nor `disabled`; the overlap of the two lists
is exactly the units in `fallback` (so they partition the registry iff no
unit is in `fallback`). -/
theorem c4_health_classification (reg : List Feat) (f : Feat) :
    (f ∈ getProblematicFeatures reg ↔
      f ∈ reg ∧ (f.state = FState.error ∨ f.state = FState.disabled ∨
        f.state = FState.fallback)) ∧
    (f ∈ getHealthyFeatures reg ↔
      f ∈ reg ∧ f.state ≠ FState.error ∧ f.state ≠ FState.disabled) ∧
    (f ∈ getHealthyFeatures reg ∧ f ∈ getProblematicFeatures reg ↔
      f ∈ reg ∧ f.state = FState.fallback) := by
  simp only [getProblematicFeatures, getHealthyFeatures, List.mem_filter,
    Bool.and_eq_true, Bool.or_eq_true, beq_iff_eq, Bool.not_eq_eq_eq_not,
    Bool.not_true, beq_eq_false_iff_ne, ne_eq]
  refine ⟨by tauto, by tauto, ?_⟩
  constructor
  · rintro ⟨⟨hm, he, hd⟩, -, hs⟩
    rcases hs with (h | h) | h
    · exact absurd h he
    · exact absurd h hd
    · exact ⟨hm, h⟩
  · rintro ⟨hm, hs⟩
    refine ⟨⟨hm, by simp [hs], by simp [hs]⟩, hm, Or.inr hs⟩


/-- A dispatch over listeners that do not mutate the listener set
completes (with one spare unit of fuel) and invokes exactly the pending
listeners, in order. -/
theorem emitDispatch_nonMutating (act : Nat → LAction) :
    ∀ (pending done invoked : List Nat) (fuel : Nat),
      NonMutating act pending → pending.length + 1 ≤ fuel →
      emitDispatch act fuel done pending invoked =
        some (invoked.reverse ++ pending) := by
  intro pending
  induction pending with
  | nil =>
    intro done invoked fuel _ hf
    match fuel, hf with
    | f + 1, _ => simp [emitDispatch]
  | cons h t ih =>
    intro done invoked fuel hnm hf
    match fuel, hf with
    | f + 1, hf =>
      have hact := hnm h (by simp)
      have happ : applyLAction (act h) (done ++ [h]) t = (done ++ [h], t) := by
        rcases hact with h1 | h1 | h1 <;> rw [h1] <;> rfl
      simp only [emitDispatch, happ]
      rw [ih (done ++ [h]) (h :: invoked) f (fun k hk => hnm k (by simp [hk])) (by simpa using hf)]
      simp

/-- Listeners that do nothing are consumed one-for-one from the front of
the pending list. -/
theorem emitDispatch_inert_prefix (act : Nat → LAction) :
    ∀ (pre rest done invoked : List Nat) (fuel : Nat), Inert act pre →
      emitDispatch act (pre.length + fuel) done (pre ++ rest) invoked =
        emitDispatch act fuel (done ++ pre) rest (pre.reverse ++ invoked) := by
  intro pre
  induction pre with
  | nil => intro rest done invoked fuel _; simp
  | cons h t ih =>
    intro rest done invoked fuel hin
    have hact : act h = LAction.nop := hin h (by simp)
    have happ : applyLAction (act h) (done ++ [h]) (t ++ rest) = (done ++ [h], t ++ rest) := by
      rw [hact]; rfl
    have harith : (h :: t).length + fuel = (t.length + fuel) + 1 := by
      simp [List.length_cons]; omega
    rw [harith]
    show emitDispatch act ((t.length + fuel) + 1) done ((h :: t) ++ rest) invoked = _
    rw [List.cons_append]
    simp only [emitDispatch, happ]
    rw [ih rest (done ++ [h]) (h :: invoked) fuel (fun k hk => hin k (by simp [hk]))]
    simp [List.append_assoc]

/-- Counterexample listener behaviour for C2: listener 1 subscribes a new
listener 3 for the same event type during dispatch. -/
def c2Act : Nat → LAction := fun k => if k = 1 then LAction.addL 3 else LAction.nop

/-- C2 counterexample: `emit` iterates the LIVE listener set, not a
snapshot taken at emit time: with listeners `[1, 2]` registered, listener
1 adds listener 3 during dispatch and 3 — not registered at the moment
`emit` was called — is invoked by the very same emit. -/
theorem c2_counterexample :
    emitInvoked c2Act 10 [1, 2] = some [1, 2, 3] ∧ (3 : Nat) ∉ [1, 2] := by
  decide

/-- C2 (amended): `emit` dispatches synchronously, in insertion order,
over the live listener set rather than a snapshot: a listener that an
earlier listener adds during dispatch is also invoked by the current
emit (after the listeners already pending), and a listener removed by an
earlier listener before being reached is skipped; the untouched listeners
are invoked exactly once each, in registration order. -/
theorem c2_emit_live_set (act : Nat → LAction) (pre post : List Nat) (x n y : Nat)
    (hpre : Inert act pre) (hpost : Inert act post) :
    (act x = LAction.addL n → act n = LAction.nop → n ∉ pre ++ x :: post →
      emitInvoked act (pre.length + post.length + 3) (pre ++ x :: post) =
        some (pre ++ x :: post ++ [n])) ∧
    (act x = LAction.removeL y → y ∈ post → y ∉ pre → y ≠ x →
      emitInvoked act (pre.length + post.length + 3) (pre ++ x :: post) =
        some (pre ++ x :: post.erase y)) := by
  constructor
  · intro hx hn hnm
    unfold emitInvoked
    have harith : pre.length + post.length + 3 = pre.length + (post.length + 3) := by omega
    rw [harith, emitDispatch_inert_prefix act pre (x :: post) [] [] (post.length + 3) hpre]
    rw [show post.length + 3 = (post.length + 2) + 1 from rfl]
    simp only [List.nil_append, List.append_nil]
    simp only [emitDispatch, hx]
    rw [show applyLAction (LAction.addL n) (pre ++ [x]) post = (pre ++ [x], post ++ [n]) from ?hadd]
    case hadd =>
      simp only [applyLAction]
      rw [if_neg]
      intro hmem
      apply hnm
      simp only [List.mem_append, List.mem_cons, List.mem_singleton] at hmem ⊢
      tauto
    rw [emitDispatch_nonMutating act (post ++ [n]) (pre ++ [x]) (x :: pre.reverse)
      ((post.length + 2))
      (fun k hk => by
        rcases List.mem_append.mp hk with hk1 | hk1
        · exact Or.inl (hpost k hk1)
        · simp only [List.mem_singleton] at hk1
          exact Or.inl (hk1 ▸ hn))
      (by simp)]
    simp
  · intro hx hy hyp hyx
    unfold emitInvoked
    have harith : pre.length + post.length + 3 = pre.length + (post.length + 3) := by omega
    rw [harith, emitDispatch_inert_prefix act pre (x :: post) [] [] (post.length + 3) hpre]
    rw [show post.length + 3 = (post.length + 2) + 1 from rfl]
    simp only [List.nil_append, List.append_nil]
    simp only [emitDispatch, hx]
    rw [show applyLAction (LAction.removeL y) (pre ++ [x]) post = (pre ++ [x], post.erase y) from ?herase]
    case herase =>
      simp only [applyLAction]
      rw [@List.erase_of_not_mem _ _ _ y (pre ++ [x])
        (by simp only [List.mem_append, List.mem_singleton]; tauto)]
    rw [emitDispatch_nonMutating act (post.erase y) (pre ++ [x]) (x :: pre.reverse)
      ((post.length + 2))
      (fun k hk => Or.inl (hpost k (List.mem_of_mem_erase hk)))
      (by have := List.Sublist.length_le (List.erase_sublist y post); omega)]
    simp

/-- Witness for `c2_emit_live_set` (the add clause) at the concrete
two-listener bus of the counterexample. -/
theorem c2_witness :
    emitInvoked c2Act 4 [1, 2] = some [1, 2, 3] :=
  (c2_emit_live_set c2Act [] [2] 1 3 0 (by unfold Inert; decide) (by unfold Inert; decide)).1
    (by decide) (by decide) (by decide)

/-- Witness listener behaviour for C8: listener 2 of three throws
synchronously. -/
def c8Act : Nat → LAction := fun k => if k = 2 then LAction.throws else LAction.nop

/-- C8: for an emit with N listeners registered for the type — none of
which mutates the listener set, though any of them may throw
synchronously or return a rejecting promise — every one of the N
listeners is invoked exactly once, in registration order, and the
dispatch runs to completion (each failure is caught inside the loop and
never aborts the remaining listeners nor propagates to `emit`'s
caller). -/
theorem c8_emit_fault_isolation (act : Nat → LAction) (listeners : List Nat)
    (hnm : NonMutating act listeners) (hnd : listeners.Nodup) :
    emitInvoked act (listeners.length + 1) listeners = some listeners ∧
    ∀ k ∈ listeners, List.count k listeners = 1 := by
  constructor
  · unfold emitInvoked
    rw [emitDispatch_nonMutating act listeners [] [] (listeners.length + 1) hnm (le_refl _)]
    simp
  · intro k hk
    exact List.count_eq_one_of_mem hnd hk

/-- Witness for `c8_emit_fault_isolation`: three listeners of which the
second throws; all three are still invoked exactly once (spec scenario
4). -/
theorem c8_witness :
    emitInvoked c8Act 4 [1, 2, 3] = some [1, 2, 3] ∧
    ∀ k ∈ [1, 2, 3], List.count k [1, 2, 3] = 1 :=
  c8_emit_fault_isolation c8Act [1, 2, 3] (by unfold NonMutating; decide) (by decide)


/-- Scenario input for C5: unit `A` with `maxRetries = 2`,
`retryDelay = 100` (fallback enabled by default). -/
def c5unit : UnitModel :=
  UnitModel.mk "A" (ErrorRecovery.mk 2 100 true) FState.idle none 0

/-- The same unit with `maxRetries = 3`, for which the claimed sequences
actually arise. -/
def c5unit3 : UnitModel :=
  UnitModel.mk "A" (ErrorRecovery.mk 3 100 true) FState.idle none 0

/-- Hook schedule for C5: `onInit` fails on its first two invocations
and would succeed on the third. -/
def c5outcomes : Nat → HookResult :=
  fun k => if k < 2 then HookResult.fail "boom" else HookResult.ok

/-- C5 counterexample: with `maxRetries = 2`, `canRetry()` is
`retryCount < maxRetries` checked AFTER the increment, so only two init
attempts ever run — the third attempt (and the success) never happens.
The observed state sequence ends `error, fallback`, not
`initializing, initialized`, and the retryCount sequence is `0,1,2` with
no reset to 0. -/
theorem c5_counterexample :
    (runInit c5unit c5outcomes).states ≠
      [FState.idle, FState.initializing, FState.error, FState.initializing,
        FState.error, FState.initializing, FState.initialized] ∧
    (runInit c5unit c5outcomes).retrySeq ≠ [0, 1, 2, 0] ∧
    (runInit c5unit c5outcomes).states =
      [FState.idle, FState.initializing, FState.error, FState.initializing,
        FState.error, FState.fallback] := by
  decide

/-- C5 (amended): for unit A (`maxRetries = 2`, `retryDelay = 100`,
default fallback) whose `onInit` fails on the first two attempts, exactly
two attempts occur: observed states
`idle, initializing, error, initializing, error, fallback`, observed
retryCount sequence `0, 1, 2`, one scheduled retry delay `100`.  The
sequences the claim states (seven states ending `initialized`, retry
sequence `0,1,2,0`, delays `100, 200`) are produced by the same hook
schedule with `maxRetries = 3`. -/
theorem c5_retry_traces :
    (runInit c5unit c5outcomes).states =
      [FState.idle, FState.initializing, FState.error, FState.initializing,
        FState.error, FState.fallback] ∧
    (runInit c5unit c5outcomes).retrySeq = [0, 1, 2] ∧
    (runInit c5unit c5outcomes).unit.state = FState.fallback ∧
    (runInit c5unit c5outcomes).delays = [100] ∧
    (runInit c5unit3 c5outcomes).states =
      [FState.idle, FState.initializing, FState.error, FState.initializing,
        FState.error, FState.initializing, FState.initialized] ∧
    (runInit c5unit3 c5outcomes).retrySeq = [0, 1, 2, 0] ∧
    (runInit c5unit3 c5outcomes).delays = [100, 200] := by
  decide

/-- Counterexample input for C6: a unit owning one timer and one
registered cleanup callback. -/
def c6res : Resources := Resources.mk [7] [] [] [5]

/-- C6 counterexample: `enterFallbackMode` sets the state to `fallback`
FIRST and only then runs `safeCleanup` — the state-set action precedes
the cleanup actions in the trace, so cleanup has NOT completed by the
time the state becomes `fallback`. -/
theorem c6_counterexample :
    enterFallbackTrace c6res =
      [CAction.setStateAct FState.fallback, CAction.clearTimeoutAct 7,
        CAction.runCleanupTask 5, CAction.emitFallbackEvent] ∧
    (enterFallbackTrace c6res).indexOf (CAction.setStateAct FState.fallback) <
      (enterFallbackTrace c6res).indexOf (CAction.runCleanupTask 5) := by
  decide

/-- C6 (amended): on fallback entry the state is set to `fallback` first;
full resource cleanup (cancelling every timer and interval once, removing
every owned element once, running every registered cleanup callback
exactly once) then runs and has completed before the `feature:fallback`
event — the trace's last action — is emitted. -/
theorem c6_fallback_cleanup (r : Resources)
    (h1 : r.cleanupTasks.Nodup) (h2 : r.timers.Nodup) (h3 : r.intervals.Nodup)
    (h4 : r.elements.Nodup) :
    (enterFallbackTrace r).head? = some (CAction.setStateAct FState.fallback) ∧
    (enterFallbackTrace r).getLast? = some CAction.emitFallbackEvent ∧
    (∀ t ∈ r.cleanupTasks,
      List.count (CAction.runCleanupTask t) (enterFallbackTrace r) = 1) ∧
    (∀ t ∈ r.timers,
      List.count (CAction.clearTimeoutAct t) (enterFallbackTrace r) = 1) ∧
    (∀ t ∈ r.intervals,
      List.count (CAction.clearIntervalAct t) (enterFallbackTrace r) = 1) ∧
    (∀ k ∈ r.elements,
      List.count (CAction.removeElementAct k) (enterFallbackTrace r) = 1) := by
  unfold enterFallbackTrace safeCleanupTrace
  refine ⟨rfl, ?_, ?_, ?_, ?_, ?_⟩
  · rw [List.getLast?_concat]
  · intro t ht
    simp only [List.count_append, List.count_cons, List.count_singleton]
    rw [List.count_map_of_injective _ CAction.runCleanupTask
      (fun a b h => by cases h; rfl) t]
    rw [List.count_eq_one_of_mem h1 ht]
    rw [List.count_eq_zero_of_not_mem, List.count_eq_zero_of_not_mem,
      List.count_eq_zero_of_not_mem]
    · simp
    · simp
    · simp
    · simp
  · intro t ht
    simp only [List.count_append, List.count_cons, List.count_singleton]
    rw [List.count_map_of_injective _ CAction.clearTimeoutAct
      (fun a b h => by cases h; rfl) t]
    rw [List.count_eq_one_of_mem h2 ht]
    rw [List.count_eq_zero_of_not_mem, List.count_eq_zero_of_not_mem,
      List.count_eq_zero_of_not_mem]
    · simp
    · simp
    · simp
    · simp
  · intro t ht
    simp only [List.count_append, List.count_cons, List.count_singleton]
    rw [List.count_map_of_injective _ CAction.clearIntervalAct
      (fun a b h => by cases h; rfl) t]
    rw [List.count_eq_one_of_mem h3 ht]
    rw [List.count_eq_zero_of_not_mem, List.count_eq_zero_of_not_mem,
      List.count_eq_zero_of_not_mem]
    · simp
    · simp
    · simp
    · simp
  · intro k hk
    simp only [List.count_append, List.count_cons, List.count_singleton]
    rw [List.count_map_of_injective _ CAction.removeElementAct
      (fun a b h => by cases h; rfl) k]
    rw [List.count_eq_one_of_mem h4 hk]
    rw [List.count_eq_zero_of_not_mem, List.count_eq_zero_of_not_mem,
      List.count_eq_zero_of_not_mem]
    · simp
    · simp
    · simp
    · simp

/-- Witness resources for `c6_fallback_cleanup`: a unit owning one timer,
one interval, one element and one registered cleanup callback. -/
def c6resW : Resources := Resources.mk [7] [9] ["btn"] [5]

/-- Witness for `c6_fallback_cleanup` at a unit owning all four resource
kinds: state set first, event emitted last, and each timer, interval,
element and cleanup callback processed exactly once. -/
theorem c6_witness :
    ((enterFallbackTrace c6resW).head? = some (CAction.setStateAct FState.fallback)) ∧
    ((enterFallbackTrace c6resW).getLast? = some CAction.emitFallbackEvent) ∧
    List.count (CAction.runCleanupTask 5) (enterFallbackTrace c6resW) = 1 ∧
    List.count (CAction.clearTimeoutAct 7) (enterFallbackTrace c6resW) = 1 ∧
    List.count (CAction.clearIntervalAct 9) (enterFallbackTrace c6resW) = 1 ∧
    List.count (CAction.removeElementAct "btn") (enterFallbackTrace c6resW) = 1 :=
  ⟨(c6_fallback_cleanup c6resW (by decide) (by decide) (by decide) (by decide)).1,
   (c6_fallback_cleanup c6resW (by decide) (by decide) (by decide) (by decide)).2.1,
   (c6_fallback_cleanup c6resW (by decide) (by decide) (by decide) (by decide)).2.2.1
     5 (by decide),
   (c6_fallback_cleanup c6resW (by decide) (by decide) (by decide) (by decide)).2.2.2.1
     7 (by decide),
   (c6_fallback_cleanup c6resW (by decide) (by decide) (by decide) (by decide)).2.2.2.2.1
     9 (by decide),
   (c6_fallback_cleanup c6resW (by decide) (by decide) (by decide) (by decide)).2.2.2.2.2
     "btn" (by decide)⟩


/-- `handleError` always records the failure in `lastError`, whatever
recovery branch it takes. -/
theorem handleError_lastError (u : UnitModel) (msg phase : String) :
    (handleError u msg phase).unit.lastError =
      some (ErrRecord.mk u.name phase msg) := by
  simp only [handleError]
  split_ifs <;> rfl

/-- Counterexample input for C7: a unit failing in phase `stop` with
retries remaining. -/
def c7u : UnitModel :=
  UnitModel.mk "S" (ErrorRecovery.mk 3 1000 true) FState.stopping none 0

/-- C7 counterexample: for a `stop`-phase failure with retries remaining,
`scheduleRetry` does start a timer, but the timer's `switch (phase)` has
no `stop` case — the scheduled callback performs NO retry of the phase
(unlike `init` and `start`). -/
theorem c7_counterexample :
    (handleError c7u "boom" "stop").decision =
      Decision.scheduleTimer 1000 RetryAction.noRetry ∧
    retryActionFor "stop" = RetryAction.noRetry ∧
    RetryAction.noRetry ≠ RetryAction.reenterInit ∧
    RetryAction.noRetry ≠ RetryAction.reenterStart := by
  decide

/-- C7 (amended): on a hook failure the unit records the error,
increments `retryCount` and enters `error`; if the incremented count is
below `maxRetries`, a timer is scheduled after
`retryDelay * retryCount` ms (linear backoff scaled by attempt number)
whose callback re-enters the phase for `init` and `start` but performs no
retry for `stop`/`destroy`; otherwise the unit moves to `fallback` when
the policy enables fallback mode, and to `disabled` when it does not. -/
theorem c7_error_recovery (u : UnitModel) (msg phase : String) :
    (handleError u msg phase).unit.retryCount = u.retryCount + 1 ∧
    (handleError u msg phase).unit.lastError =
      some (ErrRecord.mk u.name phase msg) ∧
    (handleError u msg phase).statesEntered.head? = some FState.error ∧
    (u.retryCount + 1 < u.recovery.maxRetries →
      (handleError u msg phase).decision =
        Decision.scheduleTimer (u.recovery.retryDelay * (u.retryCount + 1))
          (retryActionFor phase) ∧
      (handleError u msg phase).unit.state = FState.error) ∧
    (¬ u.retryCount + 1 < u.recovery.maxRetries → u.recovery.fallbackMode = true →
      (handleError u msg phase).decision = Decision.fallbackEntered ∧
      (handleError u msg phase).unit.state = FState.fallback) ∧
    (¬ u.retryCount + 1 < u.recovery.maxRetries → u.recovery.fallbackMode = false →
      (handleError u msg phase).decision = Decision.disabledSet ∧
      (handleError u msg phase).unit.state = FState.disabled) ∧
    retryActionFor "init" = RetryAction.reenterInit ∧
    retryActionFor "start" = RetryAction.reenterStart ∧
    retryActionFor "stop" = RetryAction.noRetry ∧
    retryActionFor "destroy" = RetryAction.noRetry := by
  refine ⟨?_, handleError_lastError u msg phase, ?_, ?_, ?_, ?_,
    by decide, by decide, by decide, by decide⟩
  · simp only [handleError]
    split_ifs <;> rfl
  · simp only [handleError]
    split_ifs <;> rfl
  · intro hlt
    simp [handleError, hlt]
  · intro hge hfb
    simp [handleError, hge, hfb]
  · intro hge hfb
    simp [handleError, hge, hfb]

/-- Witness for `c7_error_recovery`: first `init` failure of a fresh unit
with `maxRetries = 3`, `retryDelay = 1000`. -/
theorem c7_witness :
    (handleError c7u "boom" "init").unit.retryCount = 1 ∧
    (handleError c7u "boom" "init").decision =
      Decision.scheduleTimer (1000 * (0 + 1)) (retryActionFor "init") ∧
    retryActionFor "init" = RetryAction.reenterInit :=
  ⟨(c7_error_recovery c7u "boom" "init").1,
   ((c7_error_recovery c7u "boom" "init").2.2.2.1 (by decide)).1,
   (c7_error_recovery c7u "boom" "init").2.2.2.2.2.2.1⟩

/-- C9: calling `init` from a state outside `{idle, error}`, `start` from
outside `{initialized, stopped, error}`, or `stop` from outside
`{running, error}` is a pure no-op: the unit (state, `lastError`,
`retryCount`) is returned unchanged, no state is entered, no error record
or recovery decision is produced, the promise resolves (no exception),
and only a warning is logged. -/
theorem c9_disallowed_transition_noop (u : UnitModel) (hook : HookResult) :
    (u.state ≠ FState.idle ∧ u.state ≠ FState.error →
      initCall u hook = CallResult.mk u CallOutcome.resolved [] true none) ∧
    (u.state ≠ FState.initialized ∧ u.state ≠ FState.stopped ∧
        u.state ≠ FState.error →
      startCall u hook = CallResult.mk u CallOutcome.resolved [] true none) ∧
    (u.state ≠ FState.running ∧ u.state ≠ FState.error →
      stopCall u hook = CallResult.mk u CallOutcome.resolved [] true none) := by
  refine ⟨?_, ?_, ?_⟩ <;> intro h
  · simp [initCall, h]
  · simp [startCall, h]
  · simp [stopCall, h]

/-- Witness input for C9: a unit in `initializing`, a disallowed source
state for all three guarded transitions. -/
def c9u : UnitModel :=
  UnitModel.mk "W" (ErrorRecovery.mk 3 1000 true) FState.initializing none 0

/-- Witness for `c9_disallowed_transition_noop` at the `initializing`
unit. -/
theorem c9_witness :
    initCall c9u HookResult.ok = CallResult.mk c9u CallOutcome.resolved [] true none ∧
    startCall c9u HookResult.ok = CallResult.mk c9u CallOutcome.resolved [] true none ∧
    stopCall c9u HookResult.ok = CallResult.mk c9u CallOutcome.resolved [] true none :=
  ⟨(c9_disallowed_transition_noop c9u HookResult.ok).1 (by decide),
   (c9_disallowed_transition_noop c9u HookResult.ok).2.1 (by decide),
   (c9_disallowed_transition_noop c9u HookResult.ok).2.2 (by decide)⟩

/-- C10: when the phase hook fails, each public lifecycle method returns
a promise rejected with the ORIGINAL error, even though the failure has
already been recorded (`lastError`) and the recovery decision already
taken inside the unit (`safeExecute` re-throws after `handleError`); a
direct caller must catch the rejection itself. -/
theorem c10_lifecycle_rejects_original_error (u : UnitModel) (msg : String)
    (sh : HookResult) :
    (u.state = FState.idle ∨ u.state = FState.error →
      (initCall u (HookResult.fail msg)).outcome = CallOutcome.rejected msg ∧
      (initCall u (HookResult.fail msg)).unit.lastError =
        some (ErrRecord.mk u.name "init" msg) ∧
      ((initCall u (HookResult.fail msg)).decision).isSome = true) ∧
    (u.state = FState.initialized ∨ u.state = FState.stopped ∨
        u.state = FState.error →
      (startCall u (HookResult.fail msg)).outcome = CallOutcome.rejected msg ∧
      (startCall u (HookResult.fail msg)).unit.lastError =
        some (ErrRecord.mk u.name "start" msg) ∧
      ((startCall u (HookResult.fail msg)).decision).isSome = true) ∧
    (u.state = FState.running ∨ u.state = FState.error →
      (stopCall u (HookResult.fail msg)).outcome = CallOutcome.rejected msg ∧
      (stopCall u (HookResult.fail msg)).unit.lastError =
        some (ErrRecord.mk u.name "stop" msg) ∧
      ((stopCall u (HookResult.fail msg)).decision).isSome = true) ∧
    (u.state ≠ FState.running →
      (destroyCall u sh (HookResult.fail msg)).outcome = CallOutcome.rejected msg ∧
      (destroyCall u sh (HookResult.fail msg)).unit.lastError =
        some (ErrRecord.mk u.name "destroy" msg) ∧
      ((destroyCall u sh (HookResult.fail msg)).decision).isSome = true) := by
  refine ⟨?_, ?_, ?_, ?_⟩ <;> intro h
  · rcases h with h | h <;> simp [initCall, h, handleError_lastError]
  · rcases h with h | h | h <;> simp [startCall, h, handleError_lastError]
  · rcases h with h | h <;> simp [stopCall, h, handleError_lastError]
  · simp [destroyCall, h, handleError_lastError]

/-- Witness inputs for C10: units in `idle`, `initialized` and `running`
so that each lifecycle method's guard passes. -/
def c10uI : UnitModel :=
  UnitModel.mk "U" (ErrorRecovery.mk 3 1000 true) FState.idle none 0

def c10uS : UnitModel :=
  UnitModel.mk "U" (ErrorRecovery.mk 3 1000 true) FState.initialized none 0

def c10uR : UnitModel :=
  UnitModel.mk "U" (ErrorRecovery.mk 3 1000 true) FState.running none 0

/-- Witness for `c10_lifecycle_rejects_original_error`: each method
called with a hook failing with error `X` rejects with `X`. -/
theorem c10_witness :
    (initCall c10uI (HookResult.fail "X")).outcome = CallOutcome.rejected "X" ∧
    (startCall c10uS (HookResult.fail "X")).outcome = CallOutcome.rejected "X" ∧
    (stopCall c10uR (HookResult.fail "X")).outcome = CallOutcome.rejected "X" ∧
    (destroyCall c10uI HookResult.ok (HookResult.fail "X")).outcome =
      CallOutcome.rejected "X" :=
  ⟨((c10_lifecycle_rejects_original_error c10uI "X" HookResult.ok).1 (by decide)).1,
   ((c10_lifecycle_rejects_original_error c10uS "X" HookResult.ok).2.1 (by decide)).1,
   ((c10_lifecycle_rejects_original_error c10uR "X" HookResult.ok).2.2.1 (by decide)).1,
   ((c10_lifecycle_rejects_original_error c10uI "X" HookResult.ok).2.2.2 (by decide)).1⟩

end ChromeFlex
